import Mathlib

/-!
# vault-env-reload: the polling loop of `main.go`

A shallow embedding of `src/main.go`: `Vault.GetSecret`, `isSecretDataEqual`
and the body of `main` (start-up, the `for`/`select` loop, the publish step),
with the Go runtime behaviour the program relies on made explicit:

* values behind `interface{}` are the ones the Vault client's JSON decoder
  produces (`nil`, `bool`, `string`, `json.Number`, `[]interface{}`,
  `map[string]interface{}`);
* run-time panics (nil dereference, failed type assertion, comparison of
  uncomparable dynamic types) are results of type `Except Fault`;
* the order in which `range` enumerates a map is an input of every loop;
* the process environment, the output file and the log are explicit state.
-/

namespace VaultEnvReload

/-! ## Definitions: the embedding of `main.go`, then the inputs used in examples -/

/-- A value stored behind `interface{}` in a decoded Vault response. -/
inductive Value where
  | nil : Value
  | bool (b : Bool) : Value
  | str (s : String) : Value
  | num (n : String) : Value
  | list (xs : List Value) : Value
  | obj (kvs : List (String × Value)) : Value

/-- A Go `map[string]interface{}`: its entries, in some enumeration order.
A nil map and an empty map both have no entries; `len`, indexing and `range`,
the only operations `main.go` applies, do not tell them apart. -/
abbrev GoMap := List (String × Value)

/-- The zero value of `map[string]interface{}` (`var previousSecretData ...`). -/
def nilMap : GoMap := []

/-- Keys of a Go map are pairwise distinct. -/
def GoMap.WF (m : GoMap) : Prop := (m.map Prod.fst).Nodup

/-- The comma-ok index expression `value, ok := m[key]`. -/
def GoMap.index (m : GoMap) (key : String) : Option Value := List.lookup key m

/-- The plain index expression `m[key]`: the zero value (nil interface) when absent. -/
def GoMap.indexOrNil (m : GoMap) (key : String) : Value :=
  match m.index key with
  | some v => v
  | none => Value.nil

/-- Run-time panics of the Go program. -/
inductive Fault where
  | nilDereference : Fault
  | typeAssertion : Fault
  | uncomparable : Fault
  deriving DecidableEq, Repr

/-- Go's `strings.Join`. -/
def stringsJoin : List String → String → String
  | [], _ => ""
  | [a], _ => a
  | a :: b :: rest, sep => a ++ sep ++ stringsJoin (b :: rest) sep

/-- Insert a rendered map entry in key order (fmt prints maps sorted by key). -/
def insertByKey (e : String × String) : List (String × String) → List (String × String)
  | [] => [e]
  | x :: xs => if e.1 < x.1 then e :: x :: xs else x :: insertByKey e xs

/-- Sort rendered map entries by key. -/
def sortByKey : List (String × String) → List (String × String)
  | [] => []
  | x :: xs => insertByKey x (sortByKey xs)

mutual
/-- The text of `fmt.Sprintf("%v", v)`. -/
def sprintV : Value → String
  | Value.nil => "<nil>"
  | Value.bool b => if b then "true" else "false"
  | Value.str s => s
  | Value.num n => n
  | Value.list xs => "[" ++ stringsJoin (sprintList xs) " " ++ "]"
  | Value.obj kvs =>
      "map[" ++ stringsJoin ((sortByKey (sprintEntries kvs)).map (fun p => p.1 ++ ":" ++ p.2)) " " ++ "]"
/-- The `%v` text of each element of a slice. -/
def sprintList : List Value → List String
  | [] => []
  | x :: xs => sprintV x :: sprintList xs
/-- The `%v` text of each value of a nested map, with its key. -/
def sprintEntries : List (String × Value) → List (String × String)
  | [] => []
  | (k, v) :: rest => (k, sprintV v) :: sprintEntries rest
end

/-- The Go comparison `value1 == value2` of two interface values: different
dynamic types compare unequal, identical uncomparable dynamic types panic. -/
def ifaceEq : Value → Value → Except Fault Bool
  | Value.nil, Value.nil => Except.ok true
  | Value.bool a, Value.bool b => Except.ok (a == b)
  | Value.str a, Value.str b => Except.ok (a == b)
  | Value.num a, Value.num b => Except.ok (a == b)
  | Value.list _, Value.list _ => Except.error Fault.uncomparable
  | Value.obj _, Value.obj _ => Except.error Fault.uncomparable
  | _, _ => Except.ok false

/-- Dynamic types on which `==` does not panic. -/
def Value.comparable : Value → Bool
  | Value.list _ => false
  | Value.obj _ => false
  | _ => true

/-- The `for key, value1 := range data1` loop of `isSecretDataEqual`, over the
entries still to be enumerated. -/
def isSecretDataEqualLoop (data2 : GoMap) : List (String × Value) → Except Fault Bool
  | [] => Except.ok true
  | (key, value1) :: rest =>
    match data2.index key with
    | none => Except.ok false
    | some value2 =>
      match ifaceEq value1 value2 with
      | Except.error f => Except.error f
      | Except.ok false => Except.ok false
      | Except.ok true => isSecretDataEqualLoop data2 rest

/-- `isSecretDataEqual(data1, data2)`; `order` is the order in which `range`
enumerates `data1`. -/
def isSecretDataEqual (order : GoMap → GoMap) (data1 data2 : GoMap) : Except Fault Bool :=
  if data1.length != data2.length then Except.ok false
  else isSecretDataEqualLoop data2 (order data1)

/-- The condition of line 124:
`latestVersion != previousVersion || !isSecretDataEqual(secretData, previousSecretData)`. -/
def changeTest (order : GoMap → GoMap) (latestVersion previousVersion : String)
    (secretData previousSecretData : GoMap) : Except Fault Bool :=
  if latestVersion != previousVersion then Except.ok true
  else
    match isSecretDataEqual order secretData previousSecretData with
    | Except.error f => Except.error f
    | Except.ok b => Except.ok (!b)

/-- An enumeration order is a rearrangement of the entries. -/
def FairOrder (order : GoMap → GoMap) : Prop := ∀ m : GoMap, (order m).Perm m

/-- The configuration struct of `main.go`. -/
structure Config where
  VaultAddress : String
  VaultToken : String
  VaultSecretPath : String
  OutputFile : String

/-- An `*api.Secret` that is not nil; `main.go` reads only its `Data` field. -/
structure Secret where
  Data : GoMap

/-- What `v.Client.Logical().Read(path)` returns: a possibly nil `*api.Secret`
and a possibly nil error. -/
structure ReadResult where
  secret : Option Secret
  err : Option String

/-- The `Vault` wrapper: the answer of the client's `Logical().Read` for a path. -/
structure Vault where
  Read : String → ReadResult

/-- `(*Vault).GetSecret`: the returned pair `(secretData, err)`, or the panic
raised by `secret.Data` on a nil secret or by the unchecked type assertion. -/
def GetSecret (v : Vault) (secretPath : String) : Except Fault (GoMap × Option String) :=
  let r := v.Read secretPath
  match r.err with
  | some e => Except.ok (nilMap, some e)
  | none =>
    match r.secret with
    | none => Except.error Fault.nilDereference
    | some secret =>
      match secret.Data.indexOrNil "data" with
      | Value.obj secretData => Except.ok (secretData, none)
      | _ => Except.error Fault.typeAssertion

/-- Observable actions of the process, in the order they happen. -/
inductive Event where
  | log (msg : String) : Event
  | read (path : String) : Event
  | setenv (key value : String) : Event
  | writeFile (path text : String) (perm : Nat) : Event
  | sleep (seconds : Nat) : Event
  | unlock : Event
  | exit (code : Nat) : Event
  deriving DecidableEq, Repr

/-- The process environment. -/
abbrev Env := String → Option String

/-- The state outside the loop variables: environment, files, what the
process has done so far, and whether `cancel()` has closed `ctx.Done()`. -/
structure World where
  env : Env
  files : String → Option String
  trace : List Event
  ctxDone : Bool

/-- The loop variables `previousVersion` and `previousSecretData`. -/
structure LoopState where
  previousVersion : String
  previousSecretData : GoMap

/-- The loop variables as declared before the loop (lines 92-93). -/
def LoopState.initial : LoopState := ⟨"", nilMap⟩

/-- Record an action. -/
def World.emit (w : World) (e : Event) : World := { w with trace := w.trace ++ [e] }

/-- Whether `os.Setenv(key, value)` accepts its arguments (it returns EINVAL
for an empty key, a key holding `=` or NUL, or a value holding NUL). -/
def setenvOk (key value : String) : Bool :=
  key.data != [] && !key.data.contains '=' && !key.data.contains (Char.ofNat 0)
    && !value.data.contains (Char.ofNat 0)

/-- `os.Setenv(key, value)` with its error discarded, as line 127 does. -/
def Setenv (env : Env) (key value : String) : Env :=
  if setenvOk key value then fun k => if k = key then some value else env k else env

/-- The `range` loop of lines 126-128 over the enumerated entries. -/
def setenvLoop : List (String × Value) → World → World
  | [], w => w
  | (key, value) :: rest, w =>
    setenvLoop rest
      { (w.emit (Event.setenv key (sprintV value))) with env := Setenv w.env key (sprintV value) }

/-- The `range` loop of lines 129-132: `outputData` after the appends. -/
def outputData : List (String × Value) → List String
  | [] => []
  | (key, value) :: rest => (key ++ "=" ++ sprintV value) :: outputData rest

/-- The text handed to `ioutil.WriteFile` (line 133). -/
def outputString (entries : List (String × Value)) : String :=
  stringsJoin (outputData entries) "\n"

/-- How one `ioutil.WriteFile` call ends: its error, and on error what the
file holds afterwards (it may have been truncated or partly written). -/
structure WriteOutcome where
  err : Option String
  left : Option String

/-- `ioutil.WriteFile(path, text, 0644)` on the file system. -/
def WriteFile (files : String → Option String) (path text : String) (o : WriteOutcome) :
    String → Option String :=
  fun p => if p = path then (match o.err with | none => some text | some _ => o.left) else files p

/-- Points of a tick at which the signal goroutine may run `cancel()`. -/
inductive Phase where
  | fetching : Phase
  | detecting : Phase
  | publishing : Phase
  | sleeping : Phase
  deriving DecidableEq, Repr

/-- Everything outside the program that one pass of the loop body meets. -/
structure TickInput where
  vault : Vault
  write : WriteOutcome
  orderEq : GoMap → GoMap
  orderEnv : GoMap → GoMap
  orderFile : GoMap → GoMap
  signalAt : Option Phase

/-- The three `range` enumerations of a tick are rearrangements of the map. -/
def TickInput.Fair (inp : TickInput) : Prop :=
  FairOrder inp.orderEq ∧ FairOrder inp.orderEnv ∧ FairOrder inp.orderFile

/-- The signal goroutine closes `ctx.Done()` if the signal comes at phase `p`. -/
def World.deliver (w : World) (inp : TickInput) (p : Phase) : World :=
  if inp.signalAt = some p then { w with ctxDone := true } else w

/-- How one pass through the `for` body ends. -/
inductive Step where
  | next : Step
  | stop : Step
  | panic (f : Fault) : Step
  deriving DecidableEq, Repr

/-- Lines 125-143: the branch taken when a change is detected. -/
def publish (cfg : Config) (inp : TickInput) (secretData : GoMap) (latestVersion : String)
    (w : World) : LoopState × World :=
  let w := w.emit (Event.log ("New secret version detected: " ++ latestVersion))
  let w := setenvLoop (inp.orderEnv secretData) w
  let text := outputString (inp.orderFile secretData)
  let w := w.emit (Event.writeFile cfg.OutputFile text 0o644)
  let w := { w with files := WriteFile w.files cfg.OutputFile text inp.write }
  let w := match inp.write.err with
    | some e => w.emit (Event.log ("unable to write output file: " ++ e))
    | none => w.emit (Event.log ("Successfully updated secret file: " ++ cfg.OutputFile))
  (⟨latestVersion, secretData⟩, w.deliver inp Phase.publishing)

/-- The end of the body: `time.Sleep(10 * time.Second)`. -/
def sleep10 (inp : TickInput) (w : World) : World :=
  (w.emit (Event.sleep 10)).deliver inp Phase.sleeping

/-- One pass through the `for` loop of lines 106-151. -/
def tick (cfg : Config) (inp : TickInput) (st : LoopState) (w : World) :
    Step × LoopState × World :=
  if w.ctxDone then
    (Step.stop, st, w.emit (Event.log "gracefully shutting down"))
  else
    let w := w.emit (Event.log "Checking for secret updates...")
    let w := (w.emit (Event.read cfg.VaultSecretPath)).deliver inp Phase.fetching
    match GetSecret inp.vault cfg.VaultSecretPath with
    | Except.error f => (Step.panic f, st, w)
    | Except.ok (_, some err) =>
      (Step.next, st, sleep10 inp (w.emit (Event.log ("unable to get secret from Vault: " ++ err))))
    | Except.ok (secretData, none) =>
      let latestVersion := sprintV (secretData.indexOrNil "version")
      let w := w.deliver inp Phase.detecting
      match changeTest inp.orderEq latestVersion st.previousVersion secretData
          st.previousSecretData with
      | Except.error f => (Step.panic f, st, w)
      | Except.ok true =>
        let r := publish cfg inp secretData latestVersion w
        (Step.next, r.1, sleep10 inp r.2)
      | Except.ok false =>
        (Step.next, st, sleep10 inp (w.emit (Event.log "No secret updates detected")))

/-- How the loop of `main` has ended, or that it is still going. -/
inductive LoopEnd where
  | running : LoopEnd
  | returned : LoopEnd
  | panicked (f : Fault) : LoopEnd
  deriving DecidableEq, Repr

/-- The `for` loop, run for as many passes as there are inputs. -/
def runLoop (cfg : Config) : List TickInput → LoopState → World → LoopEnd × LoopState × World
  | [], st, w => (LoopEnd.running, st, w)
  | inp :: rest, st, w =>
    match tick cfg inp st w with
    | (Step.next, st1, w1) => runLoop cfg rest st1 w1
    | (Step.stop, st1, w1) => (LoopEnd.returned, st1, w1)
    | (Step.panic f, st1, w1) => (LoopEnd.panicked f, st1, w1)

/-- What the start-up code of `main` meets: the `-config` flag, the errors of
`viper.ReadInConfig` and `viper.Unmarshal` with the decoded struct, the result
of `lock.TryLock()` and the error of `api.NewClient`. -/
structure Startup where
  configFile : String
  readInConfig : Option String
  unmarshal : Option String
  config : Config
  locked : Bool
  lockErr : Option String
  newClient : Option String

/-- How the process has ended, or that it is still going. -/
inductive ProcessEnd where
  | running : ProcessEnd
  | exited (code : Nat) : ProcessEnd
  deriving DecidableEq, Repr

/-- `log.Fatal`/`log.Fatalf`: print, then `os.Exit(1)`; deferred calls do not run. -/
def logFatal (w : World) (msg : String) : ProcessEnd × World :=
  (ProcessEnd.exited 1, (w.emit (Event.log msg)).emit (Event.exit 1))

/-- The function `main`, with the loop run for as many passes as there are inputs. -/
def main (s : Startup) (ticks : List TickInput) (w : World) : ProcessEnd × World :=
  if s.configFile = "" then logFatal w "config file path is required"
  else match s.readInConfig with
  | some e => logFatal w ("error reading configuration file: " ++ e)
  | none =>
  match s.unmarshal with
  | some e => logFatal w ("error unmarshaling configuration file: " ++ e)
  | none =>
  match s.lockErr with
  | some e => logFatal w ("error obtaining lock: " ++ e)
  | none =>
  if !s.locked then
    logFatal w "unable to obtain lock, another instance of the program is running"
  else
  -- `defer lock.Unlock()` is registered here
  match s.newClient with
  | some e => logFatal w ("unable to initialize Vault client: " ++ e)
  | none =>
  match runLoop s.config ticks LoopState.initial w with
  | (LoopEnd.running, _, w1) => (ProcessEnd.running, w1)
  | (LoopEnd.returned, _, w1) =>
    (ProcessEnd.exited 0, (w1.emit Event.unlock).emit (Event.exit 0))
  | (LoopEnd.panicked _, _, w1) =>
    (ProcessEnd.exited 2, (w1.emit Event.unlock).emit (Event.exit 2))

/-- The snapshot `{"version":"3","a":["x","y"]}`. -/
def listSnapshot : GoMap :=
  [("version", Value.str "3"), ("a", Value.list [Value.str "x", Value.str "y"])]

/-- The snapshot `{"a":["x"]}`. -/
def oldListSnapshot : GoMap := [("a", Value.list [Value.str "x"])]

/-- The snapshot `{"a":["y"]}`. -/
def newListSnapshot : GoMap := [("a", Value.list [Value.str "y"])]

/-- A store that answers every read with the given `data` map and no error. -/
def vaultWith (secretData : GoMap) : Vault :=
  ⟨fun _ => ⟨some ⟨[("data", Value.obj secretData)]⟩, none⟩⟩

/-- A pass input: the given store and write outcome, `range` in stored order,
no signal. -/
def plainInput (v : Vault) (o : WriteOutcome) : TickInput := ⟨v, o, id, id, id, none⟩

/-- A fresh process: empty environment, no files, nothing done, not cancelled. -/
def World.fresh : World := ⟨fun _ => none, fun _ => none, [], false⟩

/-- A configuration used in the examples. -/
def exampleConfig : Config := ⟨"http://127.0.0.1:8200", "token", "secret/data/app", "out.env"⟩

/-- The store answers not-found: no secret and no error. -/
def notFoundVault : Vault := ⟨fun _ => ⟨none, none⟩⟩

/-- The store answers with a secret whose `Data` has no `"data"` entry. -/
def noDataVault : Vault := ⟨fun _ => ⟨some ⟨[("foo", Value.str "bar")]⟩, none⟩⟩

/-- The store answers with a secret whose `"data"` is a string, not a map. -/
def scalarDataVault : Vault := ⟨fun _ => ⟨some ⟨[("data", Value.str "x")]⟩, none⟩⟩

/-- A start-up in which every step before the loop succeeds. -/
def goodStartup (cfg : Config) : Startup := ⟨"config.yaml", none, none, cfg, true, none, none⟩

/-- A store whose read fails with the given error. -/
def failingVault (e : String) : Vault := ⟨fun _ => ⟨none, some e⟩⟩

/-- The world once the pass has logged and issued its read. -/
def World.fetched (w : World) (cfg : Config) (inp : TickInput) : World :=
  ((w.emit (Event.log "Checking for secret updates...")).emit
    (Event.read cfg.VaultSecretPath)).deliver inp Phase.fetching

/-- The snapshot `{"a=b":"1"}`. -/
def badKeySnapshot : GoMap := [("a=b", Value.str "1")]

/-- The pieces of a character sequence between its newline characters. -/
def splitNewline : List Char → List (List Char)
  | [] => [[]]
  | c :: cs =>
    if c = '\n' then [] :: splitNewline cs
    else
      match splitNewline cs with
      | [] => [[c]]
      | l :: ls => (c :: l) :: ls

/-- The observation the output-file property is stated with: the lines of a
text file, none for the empty text, otherwise the pieces between newline
characters. -/
def textLines (text : String) : List String :=
  if text = "" then [] else (splitNewline text.data).map String.mk

/-- The line the publish step renders for one field. -/
def fieldLine (e : String × Value) : String := e.1 ++ "=" ++ sprintV e.2

/-- The snapshot `{"a":"x\ny"}`: one field, its value of two lines. -/
def twoLineSnapshot : GoMap := [("a", Value.str "x\ny")]

/-! ## Theorems -/

/-! ### Maps and the comparison of interface values -/

theorem index_of_mem {m : GoMap} (hm : m.WF) {k : String} {v : Value} (h : (k, v) ∈ m) :
    m.index k = some v := by
  induction m with
  | nil => cases h
  | cons e rest ih =>
    obtain ⟨k1, v1⟩ := e
    have hnd : k1 ∉ rest.map Prod.fst ∧ (rest.map Prod.fst).Nodup := by
      simpa [GoMap.WF] using hm
    rcases List.mem_cons.mp h with h1 | h1
    · cases h1
      simp [GoMap.index, List.lookup]
    · have hne : k ≠ k1 := by
        intro hk
        subst hk
        exact hnd.1 (List.mem_map_of_mem Prod.fst h1)
      have hb : (k == k1) = false := by simpa using hne
      have := ih hnd.2 h1
      simpa [GoMap.index, List.lookup, hb] using this

theorem mem_of_index {m : GoMap} {k : String} {v : Value} (h : m.index k = some v) :
    (k, v) ∈ m := by
  induction m with
  | nil => simp [GoMap.index, List.lookup] at h
  | cons e rest ih =>
    obtain ⟨k1, v1⟩ := e
    by_cases hk : k = k1
    · subst hk
      simp [GoMap.index, List.lookup] at h
      simp [h]
    · have hb : (k == k1) = false := by simpa using hk
      have h2 : GoMap.index rest k = some v := by
        simpa [GoMap.index, List.lookup, hb] using h
      exact List.mem_cons_of_mem _ (ih h2)

theorem ifaceEq_self (v : Value) :
    ifaceEq v v = if v.comparable then Except.ok true else Except.error Fault.uncomparable := by
  cases v <;> simp [ifaceEq, Value.comparable]

theorem eq_of_ifaceEq {a b : Value} (h : ifaceEq a b = Except.ok true) : a = b := by
  cases a <;> cases b <;> simp [ifaceEq] at h <;> simp [h]

/-- Enumerating entries that the other map holds unchanged: the loop answers
true when every value is comparable and panics otherwise; it never answers false. -/
theorem loop_same (data2 : GoMap) (l : List (String × Value))
    (h : ∀ e ∈ l, data2.index e.1 = some e.2) :
    isSecretDataEqualLoop data2 l =
      if l.all (fun e => e.2.comparable) then Except.ok true
      else Except.error Fault.uncomparable := by
  induction l with
  | nil => simp [isSecretDataEqualLoop]
  | cons e rest ih =>
    obtain ⟨k, v⟩ := e
    have hk : data2.index k = some v := h (k, v) (List.mem_cons_self _ _)
    have ih1 := ih (fun e he => h e (List.mem_cons_of_mem _ he))
    by_cases hc : v.comparable = true
    · simp only [isSecretDataEqualLoop, hk, ifaceEq_self, hc, ih1, List.all_cons,
        Bool.true_and, if_true]
    · have hc1 : v.comparable = false := by simpa using hc
      simp [isSecretDataEqualLoop, hk, ifaceEq_self, hc1]

/-- When the loop answers true, every enumerated entry is held by the other map. -/
theorem loop_true {data2 : GoMap} {l : List (String × Value)}
    (h : isSecretDataEqualLoop data2 l = Except.ok true) :
    ∀ e ∈ l, data2.index e.1 = some e.2 := by
  induction l with
  | nil => intro e he; cases he
  | cons e rest ih =>
    obtain ⟨k, v⟩ := e
    unfold isSecretDataEqualLoop at h
    cases hk : data2.index k with
    | none => simp [hk] at h
    | some v2 =>
      simp only [hk] at h
      cases hq : ifaceEq v v2 with
      | error f => simp [hq] at h
      | ok b =>
        cases b with
        | false => simp [hq] at h
        | true =>
          simp only [hq] at h
          have hv : v = v2 := eq_of_ifaceEq hq
          intro e he
          rcases List.mem_cons.mp he with h1 | h1
          · subst h1
            simpa [hv] using hk
          · exact ih h e h1

/-- When `isSecretDataEqual` answers true the two maps hold the same entries. -/
theorem perm_of_isSecretDataEqual {order : GoMap → GoMap} (hfair : FairOrder order)
    {a b : GoMap} (ha : a.WF) (h : isSecretDataEqual order a b = Except.ok true) :
    a.Perm b := by
  unfold isSecretDataEqual at h
  by_cases hlen : a.length = b.length
  · have hl : isSecretDataEqualLoop b (order a) = Except.ok true := by
      simpa [hlen] using h
    have hsub : a ⊆ b := by
      intro e he
      have he1 : e ∈ order a := (hfair a).mem_iff.mpr he
      exact mem_of_index (loop_true hl e he1)
    have hnd : a.Nodup := List.Nodup.of_map Prod.fst ha
    exact (List.subperm_of_subset hnd hsub).perm_of_length_le (le_of_eq hlen.symm)
  · simp [hlen] at h

/-- Maps with the same entries answer every index expression alike. -/
theorem index_eq_of_perm {a b : GoMap} (ha : a.WF) (hb : b.WF) (hp : a.Perm b) (k : String) :
    a.index k = b.index k := by
  cases hk : a.index k with
  | some v => exact (index_of_mem hb (hp.mem_iff.mp (mem_of_index hk))).symm
  | none =>
    cases hk2 : b.index k with
    | none => rfl
    | some v =>
      have := index_of_mem ha (hp.mem_iff.mpr (mem_of_index hk2))
      rw [hk] at this
      cases this

/-- With comparable values on the left the comparison never panics. -/
theorem ifaceEq_ok_of_comparable {a : Value} (ha : a.comparable = true) (b : Value) :
    ∃ r, ifaceEq a b = Except.ok r := by
  cases a <;> cases b <;> simp [ifaceEq, Value.comparable] at ha ⊢

theorem loop_ok_of_comparable (data2 : GoMap) (l : List (String × Value))
    (h : ∀ e ∈ l, e.2.comparable = true) :
    ∃ r, isSecretDataEqualLoop data2 l = Except.ok r := by
  induction l with
  | nil => exact ⟨true, rfl⟩
  | cons e rest ih =>
    obtain ⟨k, v⟩ := e
    unfold isSecretDataEqualLoop
    cases hk : data2.index k with
    | none => exact ⟨false, rfl⟩
    | some v2 =>
      obtain ⟨r, hr⟩ := ifaceEq_ok_of_comparable (h (k, v) (List.mem_cons_self _ _)) v2
      cases r with
      | false => exact ⟨false, by simp [hr]⟩
      | true =>
        obtain ⟨r2, hr2⟩ := ih (fun e he => h e (List.mem_cons_of_mem _ he))
        exact ⟨r2, by simp [hr, hr2]⟩

/-! ### Change detection (C1, C2, C3) -/

/-- The same entries in any enumeration order, all values of comparable
dynamic type, the same version string: the change test is false. -/
theorem unchanged_of_same_entries (order : GoMap → GoMap) (hfair : FairOrder order)
    (previous current : GoMap) (hprev : previous.WF) (hperm : current.Perm previous)
    (hcmp : ∀ e ∈ current, e.2.comparable = true) (version : String) :
    changeTest order version version current previous = Except.ok false := by
  have hl : isSecretDataEqualLoop previous (order current) = Except.ok true := by
    rw [loop_same previous (order current)]
    · have hall : (order current).all (fun e => e.2.comparable) = true := by
        rw [List.all_eq_true]
        intro e he
        exact hcmp e ((hfair current).mem_iff.mp he)
      simp [hall]
    · intro e he
      have he1 : e ∈ previous := hperm.mem_iff.mp ((hfair current).mem_iff.mp he)
      exact index_of_mem hprev he1
  simp [changeTest, isSecretDataEqual, hperm.length_eq, hl]

/-- Snapshots with comparable values that differ in some key or value are
reported as changed, also under equal version strings. -/
theorem changed_of_differ_comparable (order : GoMap → GoMap) (hfair : FairOrder order)
    (previous current : GoMap) (hcur : current.WF) (hprev : previous.WF)
    (hcmp : ∀ e ∈ current, e.2.comparable = true)
    (hdiff : ∃ k, current.index k ≠ previous.index k) (latest old : String) :
    changeTest order latest old current previous = Except.ok true := by
  unfold changeTest
  by_cases hv : latest = old
  · have hcmp1 : ∀ e ∈ order current, e.2.comparable = true :=
      fun e he => hcmp e ((hfair current).mem_iff.mp he)
    have hr : ∃ r, isSecretDataEqual order current previous = Except.ok r := by
      unfold isSecretDataEqual
      by_cases hlen : current.length = previous.length
      · obtain ⟨r, hr⟩ := loop_ok_of_comparable previous (order current) hcmp1
        exact ⟨r, by simp [hlen, hr]⟩
      · exact ⟨false, by simp [hlen]⟩
    obtain ⟨r, hr⟩ := hr
    cases r with
    | false => simp [hv, hr]
    | true =>
      exfalso
      obtain ⟨k, hk⟩ := hdiff
      exact hk (index_eq_of_perm hcur hprev (perm_of_isSecretDataEqual hfair hcur hr) k)
  · simp [hv]

/-- C1 (defect): for previous = current = `{"version":"3","a":["x","y"]}` the
change test of line 124 does not evaluate to false: in every enumeration order
the comparison `value1 != value2` of the two slices panics. -/
theorem C1_identical_snapshot_with_slice_panics (order : GoMap → GoMap)
    (hfair : FairOrder order) :
    changeTest order (sprintV (listSnapshot.indexOrNil "version"))
      (sprintV (listSnapshot.indexOrNil "version")) listSnapshot listSnapshot
      = Except.error Fault.uncomparable := by
  have hwf : listSnapshot.WF := by simp [GoMap.WF, listSnapshot]
  have hl : isSecretDataEqualLoop listSnapshot (order listSnapshot)
      = Except.error Fault.uncomparable := by
    rw [loop_same listSnapshot (order listSnapshot)]
    · have hall : ¬ ((order listSnapshot).all (fun e => e.2.comparable) = true) := by
        rw [List.all_eq_true]
        intro h
        have hmem : (("a", Value.list [Value.str "x", Value.str "y"]) : String × Value)
            ∈ order listSnapshot :=
          (hfair listSnapshot).mem_iff.mpr (by simp [listSnapshot])
        simpa [Value.comparable] using h _ hmem
      simp [hall]
    · intro e he
      exact index_of_mem hwf ((hfair listSnapshot).mem_iff.mp he)
  simp [changeTest, isSecretDataEqual, hl]

/-- Instance of the C1 evaluation with `range` in stored order. -/
theorem C1_identical_snapshot_with_slice_panics_witness :
    FairOrder id ∧
    changeTest id (sprintV (listSnapshot.indexOrNil "version"))
      (sprintV (listSnapshot.indexOrNil "version")) listSnapshot listSnapshot
      = Except.error Fault.uncomparable :=
  ⟨fun m => List.Perm.refl m,
    C1_identical_snapshot_with_slice_panics id (fun m => List.Perm.refl m)⟩

/-- C2 (defect): previous = `{"a":["x"]}` and current = `{"a":["y"]}` differ in
a value and have equal version strings, yet the change test is not true: the
comparison of the two slices panics. -/
theorem C2_differing_slices_panic (order : GoMap → GoMap) (hfair : FairOrder order) :
    sprintV (newListSnapshot.indexOrNil "version") = sprintV (oldListSnapshot.indexOrNil "version")
    ∧ changeTest order (sprintV (newListSnapshot.indexOrNil "version"))
      (sprintV (oldListSnapshot.indexOrNil "version")) newListSnapshot oldListSnapshot
      = Except.error Fault.uncomparable := by
  have ho : order newListSnapshot = newListSnapshot :=
    List.perm_singleton.mp (hfair newListSnapshot)
  refine ⟨rfl, ?_⟩
  unfold changeTest isSecretDataEqual
  rw [ho]
  simp [newListSnapshot, oldListSnapshot, isSecretDataEqualLoop, GoMap.index, List.lookup,
    ifaceEq, GoMap.indexOrNil]

/-- Instance of the C2 evaluation with `range` in reversed order. -/
theorem C2_differing_slices_panic_witness :
    FairOrder List.reverse ∧
    changeTest List.reverse (sprintV (newListSnapshot.indexOrNil "version"))
      (sprintV (oldListSnapshot.indexOrNil "version")) newListSnapshot oldListSnapshot
      = Except.error Fault.uncomparable :=
  ⟨fun m => List.reverse_perm m,
    (C2_differing_slices_panic List.reverse (fun m => List.reverse_perm m)).2⟩

/-! ### Effects of the helpers on the world -/

@[simp]
theorem emit_env (w : World) (e : Event) : (w.emit e).env = w.env := rfl
@[simp]
theorem emit_files (w : World) (e : Event) : (w.emit e).files = w.files := rfl
@[simp]
theorem emit_trace (w : World) (e : Event) : (w.emit e).trace = w.trace ++ [e] := rfl
@[simp]
theorem emit_ctxDone (w : World) (e : Event) : (w.emit e).ctxDone = w.ctxDone := rfl

@[simp]
theorem deliver_env (w : World) (inp : TickInput) (p : Phase) :
    (w.deliver inp p).env = w.env := by
  unfold World.deliver; split <;> rfl

@[simp]
theorem deliver_files (w : World) (inp : TickInput) (p : Phase) :
    (w.deliver inp p).files = w.files := by
  unfold World.deliver; split <;> rfl

@[simp]
theorem deliver_trace (w : World) (inp : TickInput) (p : Phase) :
    (w.deliver inp p).trace = w.trace := by
  unfold World.deliver; split <;> rfl

/-- The change test against the initial loop variables is true for every map. -/
theorem changeTest_initial (order : GoMap → GoMap) (secretData : GoMap) :
    changeTest order (sprintV (secretData.indexOrNil "version")) "" secretData nilMap
      = Except.ok true := by
  unfold changeTest
  by_cases hv : sprintV (secretData.indexOrNil "version") = ""
  · cases secretData with
    | nil =>
      exfalso
      have h2 : sprintV (GoMap.indexOrNil [] "version") = "<nil>" := rfl
      rw [h2] at hv
      exact absurd hv (by decide)
    | cons e rest => simp [hv, isSecretDataEqual, nilMap]
  · simp [hv]

/-- C3: while no snapshot has been retained (`previousVersion` empty,
`previousSecretData` nil) the change test is true for every fetched map, and
the pass of the loop that fetched it publishes: it hands the rendered text to
`WriteFile` and retains the snapshot. -/
theorem C3_first_fetch_always_published (cfg : Config) (inp : TickInput) (w : World)
    (secretData : GoMap) (hw : w.ctxDone = false)
    (hget : GetSecret inp.vault cfg.VaultSecretPath = Except.ok (secretData, none)) :
    changeTest inp.orderEq (sprintV (secretData.indexOrNil "version"))
        LoopState.initial.previousVersion secretData LoopState.initial.previousSecretData
      = Except.ok true
    ∧ (tick cfg inp LoopState.initial w).1 = Step.next
    ∧ (tick cfg inp LoopState.initial w).2.1
        = ⟨sprintV (secretData.indexOrNil "version"), secretData⟩
    ∧ Event.writeFile cfg.OutputFile (outputString (inp.orderFile secretData)) 0o644
        ∈ (tick cfg inp LoopState.initial w).2.2.trace := by
  have hc := changeTest_initial inp.orderEq secretData
  have hc2 : changeTest inp.orderEq (sprintV (secretData.indexOrNil "version"))
      LoopState.initial.previousVersion secretData LoopState.initial.previousSecretData
      = Except.ok true := hc
  refine ⟨hc2, ?_, ?_, ?_⟩
  · simp [tick, hw, hget, hc2]
  · simp [tick, hw, hget, hc2, publish]
  · cases he : inp.write.err <;>
      simp [tick, hw, hget, hc2, publish, sleep10, he]

/-- Instances of C3: a snapshot with zero keys, one without a `version` key, and one
whose `version` is the empty string. -/
theorem C3_first_fetch_always_published_witness :
    (changeTest id (sprintV (GoMap.indexOrNil [] "version")) "" [] nilMap = Except.ok true)
    ∧ (changeTest id (sprintV (GoMap.indexOrNil [("a", Value.str "1")] "version")) ""
        [("a", Value.str "1")] nilMap = Except.ok true)
    ∧ (changeTest id (sprintV (GoMap.indexOrNil [("version", Value.str "")] "version")) ""
        [("version", Value.str "")] nilMap = Except.ok true) :=
  ⟨(C3_first_fetch_always_published exampleConfig (plainInput (vaultWith []) ⟨none, none⟩)
      World.fresh [] rfl rfl).1,
   (C3_first_fetch_always_published exampleConfig
      (plainInput (vaultWith [("a", Value.str "1")]) ⟨none, none⟩)
      World.fresh [("a", Value.str "1")] rfl rfl).1,
   (C3_first_fetch_always_published exampleConfig
      (plainInput (vaultWith [("version", Value.str "")]) ⟨some "disk full", none⟩)
      World.fresh [("version", Value.str "")] rfl rfl).1⟩

/-! ### Fetching (C4, C5) -/

/-- C4 (defect): on not-found (`Read` returns no secret and no error)
`GetSecret` dereferences the nil secret and panics; with no `"data"` entry, or
a `"data"` that is not a map, the unchecked type assertion panics; the pass of
the loop ends in the panic and the process exits with the crash status. -/
theorem C4_fetch_without_secret_panics (path : String) (cfg : Config) (inp : TickInput)
    (st : LoopState) (w : World) :
    GetSecret notFoundVault path = Except.error Fault.nilDereference
    ∧ GetSecret noDataVault path = Except.error Fault.typeAssertion
    ∧ GetSecret scalarDataVault path = Except.error Fault.typeAssertion
    ∧ (tick cfg { inp with vault := notFoundVault } st { w with ctxDone := false }).1
        = Step.panic Fault.nilDereference
    ∧ (main (goodStartup cfg) [{ inp with vault := notFoundVault }]
        { w with ctxDone := false }).1 = ProcessEnd.exited 2 := by
  refine ⟨rfl, rfl, rfl, ?_, ?_⟩
  · simp [tick, GetSecret, notFoundVault]
  · simp [main, goodStartup, runLoop, tick, GetSecret, notFoundVault]

/-- A fetch that returns an error is answered without a panic. -/
theorem getSecret_error (v : Vault) (path : String) (secret : Option Secret) (e : String)
    (h : v.Read path = ⟨secret, some e⟩) : GetSecret v path = Except.ok (nilMap, some e) := by
  simp [GetSecret, h]

/-- C5: a pass whose fetch returns an error leaves `previousVersion` and
`previousSecretData` as they were, leaves the environment and the files
untouched, and does nothing but log, read, log the error and sleep 10 seconds. -/
theorem C5_fetch_error_changes_nothing (cfg : Config) (inp : TickInput) (st : LoopState)
    (w : World) (secret : Option Secret) (e : String) (hw : w.ctxDone = false)
    (hread : inp.vault.Read cfg.VaultSecretPath = ⟨secret, some e⟩) :
    (tick cfg inp st w).1 = Step.next
    ∧ (tick cfg inp st w).2.1 = st
    ∧ (tick cfg inp st w).2.2.env = w.env
    ∧ (tick cfg inp st w).2.2.files = w.files
    ∧ (tick cfg inp st w).2.2.trace = w.trace ++
        [Event.log "Checking for secret updates...", Event.read cfg.VaultSecretPath,
         Event.log ("unable to get secret from Vault: " ++ e), Event.sleep 10] := by
  have hget := getSecret_error inp.vault cfg.VaultSecretPath secret e hread
  simp [tick, hw, hget, sleep10]

/-- Instance of C5: a refused connection while `{"a":"1"}` at version 3 is retained. -/
theorem C5_fetch_error_changes_nothing_witness :
    (tick exampleConfig (plainInput (failingVault "connection refused") ⟨none, none⟩)
        ⟨"3", [("a", Value.str "1")]⟩ World.fresh).2.1 = ⟨"3", [("a", Value.str "1")]⟩
    ∧ (tick exampleConfig (plainInput (failingVault "connection refused") ⟨none, none⟩)
        ⟨"3", [("a", Value.str "1")]⟩ World.fresh).2.2.trace =
        [Event.log "Checking for secret updates...", Event.read "secret/data/app",
         Event.log "unable to get secret from Vault: connection refused", Event.sleep 10] := by
  have h := C5_fetch_error_changes_nothing exampleConfig
    (plainInput (failingVault "connection refused") ⟨none, none⟩)
    ⟨"3", [("a", Value.str "1")]⟩ World.fresh none "connection refused" rfl rfl
  exact ⟨h.2.1, by simpa [World.fresh, exampleConfig] using h.2.2.2.2⟩

/-! ### The publish step and the environment (C8) -/

theorem setenvLoop_files (l : List (String × Value)) (w : World) :
    (setenvLoop l w).files = w.files := by
  induction l generalizing w with
  | nil => rfl
  | cons e rest ih => obtain ⟨k, v⟩ := e; simp [setenvLoop, ih]

theorem setenvLoop_ctxDone (l : List (String × Value)) (w : World) :
    (setenvLoop l w).ctxDone = w.ctxDone := by
  induction l generalizing w with
  | nil => rfl
  | cons e rest ih => obtain ⟨k, v⟩ := e; simp [setenvLoop, ih]

theorem setenvLoop_trace (l : List (String × Value)) (w : World) :
    (setenvLoop l w).trace = w.trace ++ l.map (fun e => Event.setenv e.1 (sprintV e.2)) := by
  induction l generalizing w with
  | nil => simp [setenvLoop]
  | cons e rest ih => obtain ⟨k, v⟩ := e; simp [setenvLoop, ih]

/-- A key that is not enumerated keeps its variable. -/
theorem setenvLoop_env_other (l : List (String × Value)) (w : World) (k : String)
    (hk : k ∉ l.map Prod.fst) : (setenvLoop l w).env k = w.env k := by
  induction l generalizing w with
  | nil => rfl
  | cons e rest ih =>
    obtain ⟨k1, v1⟩ := e
    have hne : k ≠ k1 := fun h => hk (by simp [h])
    have hrest : k ∉ rest.map Prod.fst := fun h => hk (by simp at h ⊢; exact Or.inr h)
    rw [setenvLoop, ih _ hrest]
    simp only [Setenv]
    split <;> simp [hne]

/-- The variable of an enumerated key after the loop: the stringified value
when `os.Setenv` accepts the pair, the earlier value otherwise. -/
theorem setenvLoop_env_mem (l : List (String × Value)) (hl : (l.map Prod.fst).Nodup)
    (w : World) (k : String) (v : Value) (h : (k, v) ∈ l) :
    (setenvLoop l w).env k
      = if setenvOk k (sprintV v) then some (sprintV v) else w.env k := by
  induction l generalizing w with
  | nil => cases h
  | cons e rest ih =>
    obtain ⟨k1, v1⟩ := e
    have hnd : k1 ∉ rest.map Prod.fst ∧ (rest.map Prod.fst).Nodup := by simpa using hl
    rcases List.mem_cons.mp h with h1 | h1
    · cases h1
      rw [setenvLoop, setenvLoop_env_other rest _ k hnd.1]
      simp only [Setenv]
      split <;> simp
    · have hne : k ≠ k1 := by
        intro hk
        subst hk
        exact hnd.1 (List.mem_map_of_mem Prod.fst h1)
      have hkeep : Setenv w.env k1 (sprintV v1) k = w.env k := by
        simp only [Setenv]
        split <;> simp [hne]
      rw [setenvLoop, ih hnd.2 _ h1]
      simp [hkeep]

@[simp]
theorem fetched_env (w : World) (cfg : Config) (inp : TickInput) :
    (w.fetched cfg inp).env = w.env := by simp [World.fetched]

@[simp]
theorem fetched_files (w : World) (cfg : Config) (inp : TickInput) :
    (w.fetched cfg inp).files = w.files := by simp [World.fetched]

@[simp]
theorem fetched_trace (w : World) (cfg : Config) (inp : TickInput) :
    (w.fetched cfg inp).trace = w.trace ++
      [Event.log "Checking for secret updates...", Event.read cfg.VaultSecretPath] := by
  simp [World.fetched]

theorem tick_stop (cfg : Config) (inp : TickInput) (st : LoopState) (w : World)
    (hw : w.ctxDone = true) :
    tick cfg inp st w = (Step.stop, st, w.emit (Event.log "gracefully shutting down")) := by
  simp [tick, hw]

theorem tick_fetch_panic (cfg : Config) (inp : TickInput) (st : LoopState) (w : World)
    (f : Fault) (hw : w.ctxDone = false)
    (hget : GetSecret inp.vault cfg.VaultSecretPath = Except.error f) :
    tick cfg inp st w = (Step.panic f, st, w.fetched cfg inp) := by
  simp [tick, hw, hget, World.fetched]

theorem tick_fetch_error (cfg : Config) (inp : TickInput) (st : LoopState) (w : World)
    (m : GoMap) (e : String) (hw : w.ctxDone = false)
    (hget : GetSecret inp.vault cfg.VaultSecretPath = Except.ok (m, some e)) :
    tick cfg inp st w = (Step.next, st,
      sleep10 inp ((w.fetched cfg inp).emit
        (Event.log ("unable to get secret from Vault: " ++ e)))) := by
  simp [tick, hw, hget, World.fetched]

theorem tick_changed (cfg : Config) (inp : TickInput) (st : LoopState) (w : World)
    (secretData : GoMap) (hw : w.ctxDone = false)
    (hget : GetSecret inp.vault cfg.VaultSecretPath = Except.ok (secretData, none))
    (hchange : changeTest inp.orderEq (sprintV (secretData.indexOrNil "version"))
      st.previousVersion secretData st.previousSecretData = Except.ok true) :
    tick cfg inp st w = (Step.next, ⟨sprintV (secretData.indexOrNil "version"), secretData⟩,
      sleep10 inp (publish cfg inp secretData (sprintV (secretData.indexOrNil "version"))
        ((w.fetched cfg inp).deliver inp Phase.detecting)).2) := by
  simp [tick, hw, hget, hchange, World.fetched, publish]

theorem tick_unchanged (cfg : Config) (inp : TickInput) (st : LoopState) (w : World)
    (secretData : GoMap) (hw : w.ctxDone = false)
    (hget : GetSecret inp.vault cfg.VaultSecretPath = Except.ok (secretData, none))
    (hchange : changeTest inp.orderEq (sprintV (secretData.indexOrNil "version"))
      st.previousVersion secretData st.previousSecretData = Except.ok false) :
    tick cfg inp st w = (Step.next, st,
      sleep10 inp (((w.fetched cfg inp).deliver inp Phase.detecting).emit
        (Event.log "No secret updates detected"))) := by
  simp [tick, hw, hget, hchange, World.fetched]

theorem tick_compare_panic (cfg : Config) (inp : TickInput) (st : LoopState) (w : World)
    (secretData : GoMap) (f : Fault) (hw : w.ctxDone = false)
    (hget : GetSecret inp.vault cfg.VaultSecretPath = Except.ok (secretData, none))
    (hchange : changeTest inp.orderEq (sprintV (secretData.indexOrNil "version"))
      st.previousVersion secretData st.previousSecretData = Except.error f) :
    tick cfg inp st w = (Step.panic f, st, (w.fetched cfg inp).deliver inp Phase.detecting) := by
  simp [tick, hw, hget, hchange, World.fetched]

@[simp]
theorem sleep10_env (inp : TickInput) (w : World) : (sleep10 inp w).env = w.env := by
  simp [sleep10]

@[simp]
theorem sleep10_files (inp : TickInput) (w : World) :
    (sleep10 inp w).files = w.files := by
  simp [sleep10]

@[simp]
theorem sleep10_trace (inp : TickInput) (w : World) :
    (sleep10 inp w).trace = w.trace ++ [Event.sleep 10] := by
  simp [sleep10]

theorem setenvLoop_env_congr (l : List (String × Value)) (w1 w2 : World)
    (h : w1.env = w2.env) : (setenvLoop l w1).env = (setenvLoop l w2).env := by
  induction l generalizing w1 w2 with
  | nil => exact h
  | cons e rest ih =>
    obtain ⟨k, v⟩ := e
    rw [setenvLoop, setenvLoop]
    exact ih _ _ (by simp [h])

theorem publish_env (cfg : Config) (inp : TickInput) (secretData : GoMap) (lv : String)
    (w : World) :
    (publish cfg inp secretData lv w).2.env = (setenvLoop (inp.orderEnv secretData) w).env := by
  have h := setenvLoop_env_congr (inp.orderEnv secretData)
    (w.emit (Event.log ("New secret version detected: " ++ lv))) w rfl
  cases he : inp.write.err <;> simp [publish, he, h]

theorem publish_files (cfg : Config) (inp : TickInput) (secretData : GoMap) (lv : String)
    (w : World) :
    (publish cfg inp secretData lv w).2.files
      = WriteFile w.files cfg.OutputFile (outputString (inp.orderFile secretData)) inp.write := by
  cases he : inp.write.err <;> simp [publish, he, setenvLoop_files]

theorem publish_trace (cfg : Config) (inp : TickInput) (secretData : GoMap) (lv : String)
    (w : World) :
    (publish cfg inp secretData lv w).2.trace = w.trace
      ++ [Event.log ("New secret version detected: " ++ lv)]
      ++ (inp.orderEnv secretData).map (fun e => Event.setenv e.1 (sprintV e.2))
      ++ [Event.writeFile cfg.OutputFile (outputString (inp.orderFile secretData)) 0o644,
          match inp.write.err with
          | some e => Event.log ("unable to write output file: " ++ e)
          | none => Event.log ("Successfully updated secret file: " ++ cfg.OutputFile)] := by
  cases he : inp.write.err <;> simp [publish, he, setenvLoop_trace]

/-- C8 (as stated, refuted): the snapshot `{"a=b":"1"}` is published from the
initial state of a fresh process, and afterwards the environment does not map
the key `a=b` to `1`: `os.Setenv` rejects the name and its error is dropped. -/
theorem C8_counterexample_key_with_equals_sign :
    (tick exampleConfig (plainInput (vaultWith badKeySnapshot) ⟨none, none⟩)
        LoopState.initial World.fresh).2.1 = ⟨"<nil>", badKeySnapshot⟩
    ∧ (("a=b", Value.str "1") : String × Value) ∈ badKeySnapshot
    ∧ (tick exampleConfig (plainInput (vaultWith badKeySnapshot) ⟨none, none⟩)
        LoopState.initial World.fresh).2.2.env "a=b" ≠ some (sprintV (Value.str "1")) := by
  have hget : GetSecret (plainInput (vaultWith badKeySnapshot) ⟨none, none⟩).vault
      exampleConfig.VaultSecretPath = Except.ok (badKeySnapshot, none) := rfl
  have ht := tick_changed exampleConfig (plainInput (vaultWith badKeySnapshot) ⟨none, none⟩)
    LoopState.initial World.fresh badKeySnapshot rfl hget (changeTest_initial id badKeySnapshot)
  have hok : setenvOk "a=b" "1" = false := by decide
  refine ⟨?_, by simp [badKeySnapshot], ?_⟩
  · rw [ht]; rfl
  · rw [ht]
    simp [publish_env, plainInput, badKeySnapshot, setenvLoop, Setenv, sprintV, hok,
      World.fresh]

/-- C8 (amended): when a snapshot is published, for every key whose pair
`os.Setenv` accepts (non-empty name without `=` or NUL, value without NUL) the
environment afterwards maps the key to the stringified value, whether the
write of the output file succeeds or fails; a key whose pair is rejected keeps
its earlier variable. -/
theorem C8_environment_after_publish (cfg : Config) (inp : TickInput) (st : LoopState)
    (w : World) (secretData : GoMap) (o : WriteOutcome) (hw : w.ctxDone = false)
    (hget : GetSecret inp.vault cfg.VaultSecretPath = Except.ok (secretData, none))
    (hchange : changeTest inp.orderEq (sprintV (secretData.indexOrNil "version"))
      st.previousVersion secretData st.previousSecretData = Except.ok true)
    (hfair : FairOrder inp.orderEnv) (hwf : secretData.WF)
    (k : String) (v : Value) (hk : (k, v) ∈ secretData) :
    (setenvOk k (sprintV v) = true →
      (tick cfg { inp with write := o } st w).2.2.env k = some (sprintV v))
    ∧ (setenvOk k (sprintV v) = false →
      (tick cfg { inp with write := o } st w).2.2.env k = w.env k) := by
  have hnd : ((inp.orderEnv secretData).map Prod.fst).Nodup :=
    (((hfair secretData).map Prod.fst).nodup_iff).mpr hwf
  have hmem : (k, v) ∈ inp.orderEnv secretData := (hfair secretData).mem_iff.mpr hk
  have henv : (tick cfg { inp with write := o } st w).2.2.env k
      = if setenvOk k (sprintV v) then some (sprintV v) else w.env k := by
    rw [tick_changed cfg { inp with write := o } st w secretData hw hget hchange]
    simp [publish_env, setenvLoop_env_mem _ hnd _ k v hmem]
  constructor
  · intro h; rw [henv]; simp [h]
  · intro h; rw [henv]; simp [h]

/-- Instance of C8: `b` is set to `2` although the write fails with a full disk. -/
theorem C8_environment_after_publish_witness :
    (tick exampleConfig
      { plainInput (vaultWith [("a", Value.str "1"), ("b", Value.str "2")]) ⟨none, none⟩ with
        write := ⟨some "disk full", none⟩ }
      LoopState.initial World.fresh).2.2.env "b" = some "2" :=
  (C8_environment_after_publish exampleConfig
    (plainInput (vaultWith [("a", Value.str "1"), ("b", Value.str "2")]) ⟨none, none⟩)
    LoopState.initial World.fresh [("a", Value.str "1"), ("b", Value.str "2")]
    ⟨some "disk full", none⟩ rfl rfl
    (changeTest_initial id [("a", Value.str "1"), ("b", Value.str "2")])
    (fun m => List.Perm.refl m) (by simp [GoMap.WF]) "b" (Value.str "2") (by simp)).1
    (by decide)

/-! ### The text of the output file (C7) -/

theorem outputData_eq_map (l : List (String × Value)) : outputData l = l.map fieldLine := by
  induction l with
  | nil => rfl
  | cons e rest ih => obtain ⟨k, v⟩ := e; simp [outputData, ih, fieldLine]

theorem splitNewline_of_not_mem (l : List Char) (h : '\n' ∉ l) : splitNewline l = [l] := by
  induction l with
  | nil => rfl
  | cons c cs ih =>
    have hc : c ≠ '\n' := fun hc => h (by simp [hc])
    have hcs : '\n' ∉ cs := fun hm => h (List.mem_cons_of_mem _ hm)
    simp [splitNewline, hc, ih hcs]

theorem splitNewline_append (a b : List Char) (h : '\n' ∉ a) :
    splitNewline (a ++ '\n' :: b) = a :: splitNewline b := by
  induction a with
  | nil => simp [splitNewline]
  | cons c cs ih =>
    have hc : c ≠ '\n' := fun hc => h (by simp [hc])
    have hcs : '\n' ∉ cs := fun hm => h (List.mem_cons_of_mem _ hm)
    simp [splitNewline, hc, ih hcs]

theorem splitNewline_join (lines : List String) (hne : lines ≠ [])
    (h : ∀ l ∈ lines, '\n' ∉ l.data) :
    splitNewline (stringsJoin lines "\n").data = lines.map String.data := by
  induction lines with
  | nil => exact absurd rfl hne
  | cons a rest ih =>
    cases rest with
    | nil => simp [stringsJoin, splitNewline_of_not_mem _ (h a (List.mem_cons_self _ _))]
    | cons b rest2 =>
      have ha := h a (List.mem_cons_self _ _)
      have ih1 := ih (by simp) (fun l hl => h l (List.mem_cons_of_mem _ hl))
      have hd : (stringsJoin (a :: b :: rest2) "\n").data
          = a.data ++ '\n' :: (stringsJoin (b :: rest2) "\n").data := by
        simp [stringsJoin, String.data_append]
      rw [hd, splitNewline_append _ _ ha, ih1]
      simp

theorem stringsJoin_ne_empty (a : String) (rest : List String) (sep : String) (ha : a ≠ "") :
    stringsJoin (a :: rest) sep ≠ "" := by
  have hadata : a.data ≠ [] := by
    intro h
    apply ha
    cases a
    simp_all
  intro h
  have hd : (stringsJoin (a :: rest) sep).data = [] := by rw [h]
  cases rest with
  | nil => exact hadata (by simpa [stringsJoin] using hd)
  | cons b rest2 =>
    simp [stringsJoin, String.data_append] at hd
    exact hadata hd.1

theorem fieldLine_ne_empty (e : String × Value) : fieldLine e ≠ "" := by
  intro h
  have hd : (fieldLine e).data = [] := by rw [h]
  simp [fieldLine, String.data_append] at hd

theorem fieldLine_no_newline (e : String × Value) (hk : '\n' ∉ e.1.data)
    (hv : '\n' ∉ (sprintV e.2).data) : '\n' ∉ (fieldLine e).data := by
  simp [fieldLine, String.data_append, hk, hv]

/-- Without newline characters inside keys and stringified values, the lines
of the rendered text are the rendered fields, in enumeration order. -/
theorem textLines_outputString (l : List (String × Value))
    (hnl : ∀ e ∈ l, '\n' ∉ e.1.data ∧ '\n' ∉ (sprintV e.2).data) :
    textLines (outputString l) = l.map fieldLine := by
  cases l with
  | nil => simp [textLines, outputString, outputData, stringsJoin]
  | cons e rest =>
    have hne : outputString (e :: rest) ≠ "" := by
      rw [outputString, outputData_eq_map]
      exact stringsJoin_ne_empty _ _ _ (fieldLine_ne_empty e)
    have hsplit := splitNewline_join ((e :: rest).map fieldLine) (by simp)
      (by
        intro line hline
        obtain ⟨e1, he1, rfl⟩ := List.mem_map.mp hline
        exact fieldLine_no_newline e1 (hnl e1 he1).1 (hnl e1 he1).2)
    rw [textLines, if_neg hne, outputString, outputData_eq_map, hsplit]
    simp [List.map_map, Function.comp_def]

/-- C7 (as stated, refuted): for the snapshot `{"a":"x\ny"}` the written text,
split on newline, has the two lines `a=x` and `y`; the set of its lines is not
the set of `key=value` strings of the snapshot. -/
theorem C7_counterexample_value_with_newline :
    textLines (outputString (id twoLineSnapshot)) = ["a=x", "y"]
    ∧ ¬ (∀ line, line ∈ textLines (outputString (id twoLineSnapshot))
          ↔ ∃ e ∈ twoLineSnapshot, line = e.1 ++ "=" ++ sprintV e.2) := by
  have h1 : textLines (outputString (id twoLineSnapshot)) = ["a=x", "y"] := by decide
  refine ⟨h1, ?_⟩
  intro h
  have h2 := (h "y").mp (by rw [h1]; simp)
  obtain ⟨e, he, hline⟩ := h2
  simp [twoLineSnapshot] at he
  subst he
  revert hline
  decide

/-- C7 (amended): the publish step hands `WriteFile` the strings
`key=stringified value`, one per field in enumeration order, joined by single
newlines, and a successful write makes that text the content of the output
file; when no key and no stringified value contains a newline character, the
lines of the text are exactly those strings, so as a set they equal
`{ key=value | (key, value) in the snapshot }`. -/
theorem C7_output_file_lines (cfg : Config) (inp : TickInput) (secretData : GoMap)
    (lv : String) (w : World) (hfair : FairOrder inp.orderFile)
    (hnl : ∀ e ∈ secretData, '\n' ∉ e.1.data ∧ '\n' ∉ (sprintV e.2).data) :
    outputString (inp.orderFile secretData)
        = stringsJoin ((inp.orderFile secretData).map (fun e => e.1 ++ "=" ++ sprintV e.2)) "\n"
    ∧ Event.writeFile cfg.OutputFile (outputString (inp.orderFile secretData)) 0o644
        ∈ (publish cfg inp secretData lv w).2.trace
    ∧ (inp.write.err = none → (publish cfg inp secretData lv w).2.files cfg.OutputFile
        = some (outputString (inp.orderFile secretData)))
    ∧ textLines (outputString (inp.orderFile secretData))
        = (inp.orderFile secretData).map (fun e => e.1 ++ "=" ++ sprintV e.2)
    ∧ (∀ line, line ∈ textLines (outputString (inp.orderFile secretData))
        ↔ ∃ e ∈ secretData, line = e.1 ++ "=" ++ sprintV e.2) := by
  have hnl1 : ∀ e ∈ inp.orderFile secretData,
      '\n' ∉ e.1.data ∧ '\n' ∉ (sprintV e.2).data :=
    fun e he => hnl e ((hfair secretData).mem_iff.mp he)
  have hlines := textLines_outputString (inp.orderFile secretData) hnl1
  refine ⟨?_, ?_, ?_, hlines, ?_⟩
  · rw [outputString, outputData_eq_map]; rfl
  · rw [publish_trace]; simp
  · intro he
    rw [publish_files]
    simp [WriteFile, he]
  · intro line
    rw [hlines, List.mem_map]
    constructor
    · rintro ⟨e, he, rfl⟩
      exact ⟨e, (hfair secretData).mem_iff.mp he, rfl⟩
    · rintro ⟨e, he, rfl⟩
      exact ⟨e, (hfair secretData).mem_iff.mpr he, rfl⟩

/-- Instance of C7: the snapshot `{"a":"1","b":"2"}` enumerated in reverse. -/
theorem C7_output_file_lines_witness :
    textLines (outputString (List.reverse [("a", Value.str "1"), ("b", Value.str "2")]))
      = ["b=2", "a=1"]
    ∧ (∀ line, line ∈ textLines
          (outputString (List.reverse [("a", Value.str "1"), ("b", Value.str "2")]))
        ↔ ∃ e ∈ [("a", Value.str "1"), ("b", Value.str "2")],
            line = e.1 ++ "=" ++ sprintV e.2) := by
  have h := C7_output_file_lines exampleConfig
    { plainInput (vaultWith [("a", Value.str "1"), ("b", Value.str "2")]) ⟨none, none⟩ with
      orderFile := List.reverse }
    [("a", Value.str "1"), ("b", Value.str "2")] "<nil>" World.fresh
    (fun m => List.reverse_perm m) (by decide)
  exact ⟨h.2.2.2.1, h.2.2.2.2⟩

/-! ### The retained snapshot (C6) -/

/-- The same entries with a value of uncomparable dynamic type and the same
version string: the change test panics in every enumeration order. -/
theorem panics_of_same_entries (order : GoMap → GoMap) (hfair : FairOrder order)
    (previous current : GoMap) (hprev : previous.WF) (hperm : current.Perm previous)
    (hcmp : ¬ ∀ e ∈ current, e.2.comparable = true) (version : String) :
    changeTest order version version current previous = Except.error Fault.uncomparable := by
  have hl : isSecretDataEqualLoop previous (order current)
      = Except.error Fault.uncomparable := by
    rw [loop_same previous (order current)]
    · have hall : ¬ ((order current).all (fun e => e.2.comparable) = true) := by
        rw [List.all_eq_true]
        intro h
        exact hcmp (fun e he => h e ((hfair current).mem_iff.mpr he))
      simp [hall]
    · intro e he
      have he1 : e ∈ previous := hperm.mem_iff.mp ((hfair current).mem_iff.mp he)
      exact index_of_mem hprev he1
  simp [changeTest, isSecretDataEqual, hperm.length_eq, hl]

theorem wf_of_perm {a b : GoMap} (hp : a.Perm b) (hb : b.WF) : a.WF :=
  ((hp.map Prod.fst).nodup_iff).mpr hb

theorem version_eq_of_perm {a b : GoMap} (hp : a.Perm b) (hb : b.WF) :
    sprintV (a.indexOrNil "version") = sprintV (b.indexOrNil "version") := by
  simp [GoMap.indexOrNil, index_eq_of_perm (wf_of_perm hp hb) hb hp "version"]

/-- C6: when a change is detected, the pass ends with `previousVersion` the
stringified version of the fetched snapshot and `previousSecretData` the
fetched snapshot, whether the write of the output file succeeds or fails; a
following pass that fetches the same snapshot compares against the retained
one and does not publish: it leaves loop variables, environment and files as
they are and either logs that nothing changed and sleeps, or stops in the
comparison of two values of uncomparable type. -/
theorem C6_snapshot_retained_whatever_the_write (cfg : Config) (inp : TickInput)
    (st : LoopState) (w : World) (secretData : GoMap) (o : WriteOutcome)
    (hw : w.ctxDone = false)
    (hget : GetSecret inp.vault cfg.VaultSecretPath = Except.ok (secretData, none))
    (hchange : changeTest inp.orderEq (sprintV (secretData.indexOrNil "version"))
      st.previousVersion secretData st.previousSecretData = Except.ok true) :
    ∃ w1 : World,
      tick cfg { inp with write := o } st w
        = (Step.next, ⟨sprintV (secretData.indexOrNil "version"), secretData⟩, w1)
      ∧ ∀ (inp2 : TickInput) (again : GoMap), FairOrder inp2.orderEq → secretData.WF →
          again.Perm secretData →
          GetSecret inp2.vault cfg.VaultSecretPath = Except.ok (again, none) →
          w1.ctxDone = false →
          (tick cfg inp2 ⟨sprintV (secretData.indexOrNil "version"), secretData⟩ w1).2.1
              = ⟨sprintV (secretData.indexOrNil "version"), secretData⟩
          ∧ (tick cfg inp2 ⟨sprintV (secretData.indexOrNil "version"), secretData⟩ w1).2.2.env
              = w1.env
          ∧ (tick cfg inp2 ⟨sprintV (secretData.indexOrNil "version"), secretData⟩ w1).2.2.files
              = w1.files
          ∧ (((tick cfg inp2 ⟨sprintV (secretData.indexOrNil "version"), secretData⟩ w1).1
                = Step.next
              ∧ (tick cfg inp2 ⟨sprintV (secretData.indexOrNil "version"), secretData⟩
                  w1).2.2.trace = w1.trace ++
                  [Event.log "Checking for secret updates...", Event.read cfg.VaultSecretPath,
                   Event.log "No secret updates detected", Event.sleep 10])
            ∨ ((tick cfg inp2 ⟨sprintV (secretData.indexOrNil "version"), secretData⟩ w1).1
                = Step.panic Fault.uncomparable
              ∧ (tick cfg inp2 ⟨sprintV (secretData.indexOrNil "version"), secretData⟩
                  w1).2.2.trace = w1.trace ++
                  [Event.log "Checking for secret updates...",
                   Event.read cfg.VaultSecretPath]))
          ∧ ((∀ e ∈ secretData, e.2.comparable = true) →
              (tick cfg inp2 ⟨sprintV (secretData.indexOrNil "version"), secretData⟩ w1).1
                = Step.next) := by
  refine ⟨_, tick_changed cfg { inp with write := o } st w secretData hw hget hchange, ?_⟩
  intro inp2 again hfair hwf hperm hget2 hw1
  have hver := version_eq_of_perm hperm hwf
  by_cases hall : ∀ e ∈ again, e.2.comparable = true
  · have hc := unchanged_of_same_entries inp2.orderEq hfair secretData again hwf hperm hall
      (sprintV (secretData.indexOrNil "version"))
    have hc2 : changeTest inp2.orderEq (sprintV (again.indexOrNil "version"))
        (LoopState.mk (sprintV (secretData.indexOrNil "version")) secretData).previousVersion
        again
        (LoopState.mk (sprintV (secretData.indexOrNil "version")) secretData).previousSecretData
        = Except.ok false := by rw [hver]; exact hc
    rw [tick_unchanged cfg inp2 _ _ again hw1 hget2 hc2]
    simp
  · have hc := panics_of_same_entries inp2.orderEq hfair secretData again hwf hperm hall
      (sprintV (secretData.indexOrNil "version"))
    have hc2 : changeTest inp2.orderEq (sprintV (again.indexOrNil "version"))
        (LoopState.mk (sprintV (secretData.indexOrNil "version")) secretData).previousVersion
        again
        (LoopState.mk (sprintV (secretData.indexOrNil "version")) secretData).previousSecretData
        = Except.error Fault.uncomparable := by rw [hver]; exact hc
    rw [tick_compare_panic cfg inp2 _ _ again Fault.uncomparable hw1 hget2 hc2]
    simp
    push_neg at hall
    obtain ⟨e, he, hne⟩ := hall
    exact ⟨e.1, e.2, hperm.mem_iff.mp he, by simpa using hne⟩

/-- Instance of C6: the write fails with a full disk, the snapshot is retained all
the same, and the next pass that fetches it again completes without publishing. -/
theorem C6_snapshot_retained_whatever_the_write_witness :
    ∃ w1 : World,
      tick exampleConfig
          { plainInput (vaultWith [("a", Value.str "1")]) ⟨none, none⟩ with
            write := ⟨some "disk full", none⟩ }
          LoopState.initial World.fresh
        = (Step.next, ⟨"<nil>", [("a", Value.str "1")]⟩, w1)
      ∧ (tick exampleConfig (plainInput (vaultWith [("a", Value.str "1")]) ⟨none, none⟩)
          ⟨"<nil>", [("a", Value.str "1")]⟩ w1).1 = Step.next := by
  obtain ⟨w1, h1, h2⟩ := C6_snapshot_retained_whatever_the_write exampleConfig
    (plainInput (vaultWith [("a", Value.str "1")]) ⟨none, none⟩) LoopState.initial World.fresh
    [("a", Value.str "1")] ⟨some "disk full", none⟩ rfl rfl
    (changeTest_initial id [("a", Value.str "1")])
  refine ⟨w1, h1, ?_⟩
  have hw1 : w1.ctxDone = false := by
    have h3 := congrArg (fun r => r.2.2.ctxDone) h1
    simp only at h3
    rw [← h3]
    rfl
  exact (h2 (plainInput (vaultWith [("a", Value.str "1")]) ⟨none, none⟩) [("a", Value.str "1")]
    (fun m => List.Perm.refl m) (by simp [GoMap.WF]) (List.Perm.refl _) rfl hw1).2.2.2.2
    (by simp [Value.comparable])

/-! ### Cancellation (C9) -/

theorem deliver_ctxDone (w : World) (inp : TickInput) (p : Phase) :
    (w.deliver inp p).ctxDone = (w.ctxDone || decide (inp.signalAt = some p)) := by
  unfold World.deliver
  split <;> simp_all

theorem sleep10_ctxDone (inp : TickInput) (w : World) :
    (sleep10 inp w).ctxDone = (w.ctxDone || decide (inp.signalAt = some Phase.sleeping)) := by
  simp [sleep10, deliver_ctxDone]

theorem fetched_ctxDone (w : World) (cfg : Config) (inp : TickInput) :
    (w.fetched cfg inp).ctxDone
      = (w.ctxDone || decide (inp.signalAt = some Phase.fetching)) := by
  simp [World.fetched, deliver_ctxDone]

/-- What a pass does and leaves behind does not depend on when the signal comes. -/
theorem tick_signal_irrelevant (cfg : Config) (inp : TickInput) (st : LoopState) (w : World)
    (s1 s2 : Option Phase) :
    (tick cfg { inp with signalAt := s1 } st w).1 = (tick cfg { inp with signalAt := s2 } st w).1
    ∧ (tick cfg { inp with signalAt := s1 } st w).2.1
        = (tick cfg { inp with signalAt := s2 } st w).2.1
    ∧ (tick cfg { inp with signalAt := s1 } st w).2.2.env
        = (tick cfg { inp with signalAt := s2 } st w).2.2.env
    ∧ (tick cfg { inp with signalAt := s1 } st w).2.2.files
        = (tick cfg { inp with signalAt := s2 } st w).2.2.files
    ∧ (tick cfg { inp with signalAt := s1 } st w).2.2.trace
        = (tick cfg { inp with signalAt := s2 } st w).2.2.trace := by
  cases hw : w.ctxDone with
  | true => simp [tick_stop, hw]
  | false =>
    cases hget : GetSecret inp.vault cfg.VaultSecretPath with
    | error f =>
      rw [tick_fetch_panic cfg { inp with signalAt := s1 } st w f hw hget,
        tick_fetch_panic cfg { inp with signalAt := s2 } st w f hw hget]
      simp
    | ok r =>
      obtain ⟨m, oe⟩ := r
      cases oe with
      | some e =>
        rw [tick_fetch_error cfg { inp with signalAt := s1 } st w m e hw hget,
          tick_fetch_error cfg { inp with signalAt := s2 } st w m e hw hget]
        simp
      | none =>
        cases hc : changeTest inp.orderEq (sprintV (m.indexOrNil "version"))
            st.previousVersion m st.previousSecretData with
        | error f =>
          rw [tick_compare_panic cfg { inp with signalAt := s1 } st w m f hw hget hc,
            tick_compare_panic cfg { inp with signalAt := s2 } st w m f hw hget hc]
          simp
        | ok b =>
          cases b with
          | false =>
            rw [tick_unchanged cfg { inp with signalAt := s1 } st w m hw hget hc,
              tick_unchanged cfg { inp with signalAt := s2 } st w m hw hget hc]
            simp
          | true =>
            rw [tick_changed cfg { inp with signalAt := s1 } st w m hw hget hc,
              tick_changed cfg { inp with signalAt := s2 } st w m hw hget hc]
            refine ⟨rfl, rfl, ?_, ?_, ?_⟩
            · simp only [sleep10_env, publish_env]
              exact setenvLoop_env_congr _ _ _ (by simp)
            · simp [publish_files]
            · simp [publish_trace]

/-- A pass that was not stopped at the check never ends in `stop`, and when it
completes its last action is the 10-second sleep. -/
theorem tick_runs_to_sleep (cfg : Config) (inp : TickInput) (st : LoopState) (w : World)
    (hw : w.ctxDone = false) :
    (tick cfg inp st w).1 ≠ Step.stop
    ∧ ((tick cfg inp st w).1 = Step.next →
        ∃ t, (tick cfg inp st w).2.2.trace = t ++ [Event.sleep 10])
    ∧ ((tick cfg inp st w).1 = Step.next →
        inp.signalAt = some Phase.fetching ∨ inp.signalAt = some Phase.sleeping →
        (tick cfg inp st w).2.2.ctxDone = true) := by
  cases hget : GetSecret inp.vault cfg.VaultSecretPath with
  | error f =>
    rw [tick_fetch_panic cfg inp st w f hw hget]
    simp
  | ok r =>
    obtain ⟨m, oe⟩ := r
    cases oe with
    | some e =>
      rw [tick_fetch_error cfg inp st w m e hw hget]
      refine ⟨by simp, fun _ => ⟨_, sleep10_trace _ _⟩, ?_⟩
      intro _ hp
      rw [sleep10_ctxDone]
      simp only [emit_ctxDone, fetched_ctxDone]
      rcases hp with hp | hp <;> simp [hp]
    | none =>
      cases hc : changeTest inp.orderEq (sprintV (m.indexOrNil "version"))
          st.previousVersion m st.previousSecretData with
      | error f =>
        rw [tick_compare_panic cfg inp st w m f hw hget hc]
        simp
      | ok b =>
        cases b with
        | false =>
          rw [tick_unchanged cfg inp st w m hw hget hc]
          refine ⟨by simp, fun _ => ⟨_, sleep10_trace _ _⟩, ?_⟩
          intro _ hp
          rw [sleep10_ctxDone]
          simp only [emit_ctxDone, deliver_ctxDone, fetched_ctxDone]
          rcases hp with hp | hp <;> simp [hp]
        | true =>
          rw [tick_changed cfg inp st w m hw hget hc]
          refine ⟨by simp, fun _ => ⟨_, sleep10_trace _ _⟩, ?_⟩
          intro _ hp
          rw [sleep10_ctxDone]
          have hpub : ∀ w0 : World, (publish cfg inp m (sprintV (m.indexOrNil "version"))
              w0).2.ctxDone = (w0.ctxDone || decide (inp.signalAt = some Phase.publishing)) := by
            intro w0
            cases he : inp.write.err <;>
              simp [publish, he, deliver_ctxDone, setenvLoop_ctxDone]
          rw [hpub]
          simp only [deliver_ctxDone, fetched_ctxDone]
          rcases hp with hp | hp <;> simp [hp]

/-- C9: cancellation is observed only at the check that opens a pass. If
`ctx.Done()` is closed when the check is reached, the pass stops there: it
logs the shutdown, issues no read, publishes nothing, leaves the loop
variables as they are, and the loop returns. A pass that got past the check
does the same things whenever the signal comes during it, never ends in
`stop`, ends with the 10-second sleep when it completes, and once the flag is
set the next pass stops at its check. -/
theorem C9_cancellation_checked_between_ticks (cfg : Config) (inp : TickInput)
    (st : LoopState) (w : World) :
    (w.ctxDone = true →
      tick cfg inp st w = (Step.stop, st, w.emit (Event.log "gracefully shutting down"))
      ∧ ∀ rest, runLoop cfg (inp :: rest) st w
          = (LoopEnd.returned, st, w.emit (Event.log "gracefully shutting down")))
    ∧ (w.ctxDone = false → ∀ p : Phase,
      (tick cfg { inp with signalAt := some p } st w).1
          = (tick cfg { inp with signalAt := none } st w).1
      ∧ (tick cfg { inp with signalAt := some p } st w).2.1
          = (tick cfg { inp with signalAt := none } st w).2.1
      ∧ (tick cfg { inp with signalAt := some p } st w).2.2.env
          = (tick cfg { inp with signalAt := none } st w).2.2.env
      ∧ (tick cfg { inp with signalAt := some p } st w).2.2.files
          = (tick cfg { inp with signalAt := none } st w).2.2.files
      ∧ (tick cfg { inp with signalAt := some p } st w).2.2.trace
          = (tick cfg { inp with signalAt := none } st w).2.2.trace
      ∧ (tick cfg { inp with signalAt := some p } st w).1 ≠ Step.stop
      ∧ ((tick cfg { inp with signalAt := some p } st w).1 = Step.next →
          ∃ t, (tick cfg { inp with signalAt := some p } st w).2.2.trace
            = t ++ [Event.sleep 10])
      ∧ ((tick cfg { inp with signalAt := some p } st w).1 = Step.next →
          p = Phase.fetching ∨ p = Phase.sleeping →
          (tick cfg { inp with signalAt := some p } st w).2.2.ctxDone = true)
      ∧ ((tick cfg { inp with signalAt := some p } st w).2.2.ctxDone = true →
          ∀ inp2 : TickInput,
            tick cfg inp2 (tick cfg { inp with signalAt := some p } st w).2.1
                (tick cfg { inp with signalAt := some p } st w).2.2
              = (Step.stop, (tick cfg { inp with signalAt := some p } st w).2.1,
                 (tick cfg { inp with signalAt := some p } st w).2.2.emit
                   (Event.log "gracefully shutting down")))) := by
  constructor
  · intro hw
    refine ⟨tick_stop cfg inp st w hw, ?_⟩
    intro rest
    simp [runLoop, tick_stop cfg inp st w hw]
  · intro hw p
    obtain ⟨h1, h2, h3, h4, h5⟩ := tick_signal_irrelevant cfg inp st w (some p) none
    obtain ⟨h6, h7, h8⟩ := tick_runs_to_sleep cfg { inp with signalAt := some p } st w hw
    refine ⟨h1, h2, h3, h4, h5, h6, h7, ?_, ?_⟩
    · intro hn hp
      apply h8 hn
      rcases hp with hp | hp <;> simp [hp]
    · intro hd inp2
      exact tick_stop cfg inp2 _ _ hd

/-- Instances of C9: a pass reached with the flag set keeps the loop variables, and
a signal during the sleep does not alter what the pass does. -/
theorem C9_cancellation_checked_between_ticks_witness :
    (tick exampleConfig (plainInput (vaultWith [("a", Value.str "1")]) ⟨none, none⟩)
        ⟨"3", []⟩ { World.fresh with ctxDone := true }).2.1 = ⟨"3", []⟩
    ∧ (tick exampleConfig
        { plainInput (vaultWith [("a", Value.str "1")]) ⟨none, none⟩ with
          signalAt := some Phase.sleeping } LoopState.initial World.fresh).2.2.trace
      = (tick exampleConfig
        { plainInput (vaultWith [("a", Value.str "1")]) ⟨none, none⟩ with
          signalAt := none } LoopState.initial World.fresh).2.2.trace := by
  constructor
  · have h := ((C9_cancellation_checked_between_ticks exampleConfig
      (plainInput (vaultWith [("a", Value.str "1")]) ⟨none, none⟩) ⟨"3", []⟩
      { World.fresh with ctxDone := true }).1 rfl).1
    rw [h]
  · exact ((C9_cancellation_checked_between_ticks exampleConfig
      (plainInput (vaultWith [("a", Value.str "1")]) ⟨none, none⟩) LoopState.initial
      World.fresh).2 rfl Phase.sleeping).2.2.2.2.1

/-! ### The instance lock (C10) -/

/-- No pass of the loop calls `Unlock`. -/
theorem tick_count_unlock (cfg : Config) (inp : TickInput) (st : LoopState) (w : World) :
    List.count Event.unlock (tick cfg inp st w).2.2.trace = List.count Event.unlock w.trace := by
  cases hw : w.ctxDone with
  | true => simp [tick_stop, hw, List.count_cons]
  | false =>
    cases hget : GetSecret inp.vault cfg.VaultSecretPath with
    | error f =>
      rw [tick_fetch_panic cfg inp st w f hw hget]
      simp [List.count_cons]
    | ok r =>
      obtain ⟨m, oe⟩ := r
      cases oe with
      | some e =>
        rw [tick_fetch_error cfg inp st w m e hw hget]
        simp [List.count_cons]
      | none =>
        cases hc : changeTest inp.orderEq (sprintV (m.indexOrNil "version"))
            st.previousVersion m st.previousSecretData with
        | error f =>
          rw [tick_compare_panic cfg inp st w m f hw hget hc]
          simp [List.count_cons]
        | ok b =>
          cases b with
          | false =>
            rw [tick_unchanged cfg inp st w m hw hget hc]
            simp [List.count_cons]
          | true =>
            rw [tick_changed cfg inp st w m hw hget hc]
            have hmap : List.count Event.unlock
                ((inp.orderEnv m).map (fun e => Event.setenv e.1 (sprintV e.2))) = 0 := by
              rw [List.count_eq_zero]
              intro hmem
              obtain ⟨e, _, he⟩ := List.mem_map.mp hmem
              cases he
            cases he : inp.write.err <;>
              simp [publish_trace, List.count_cons, hmap, he]

theorem runLoop_count_unlock (cfg : Config) (ticks : List TickInput) (st : LoopState)
    (w : World) :
    List.count Event.unlock (runLoop cfg ticks st w).2.2.trace
      = List.count Event.unlock w.trace := by
  induction ticks generalizing st w with
  | nil => rfl
  | cons inp rest ih =>
    have ht := tick_count_unlock cfg inp st w
    unfold runLoop
    rcases hres : tick cfg inp st w with ⟨step, st1, w1⟩
    rw [hres] at ht
    cases step with
    | next => simp only [] ; rw [ih st1 w1]; exact ht
    | stop => exact ht
    | panic f => exact ht

/-- On the graceful path (the loop returns after a signal) and on the panic
path the deferred `Unlock` runs exactly once before the process ends. -/
theorem main_unlocks_once_after_loop (cfg : Config) (ticks : List TickInput) (w : World)
    (hend : (runLoop cfg ticks LoopState.initial w).1 ≠ LoopEnd.running) :
    (main (goodStartup cfg) ticks w).1 ≠ ProcessEnd.running
    ∧ List.count Event.unlock (main (goodStartup cfg) ticks w).2.trace
        = List.count Event.unlock w.trace + 1 := by
  have hc := runLoop_count_unlock cfg ticks LoopState.initial w
  rcases hres : runLoop cfg ticks LoopState.initial w with ⟨e, st1, w1⟩
  rw [hres] at hc hend
  cases e with
  | running => exact absurd rfl hend
  | returned =>
    simp [main, goodStartup, hres, List.count_cons]
    exact hc
  | panicked f =>
    simp [main, goodStartup, hres, List.count_cons]
    exact hc

/-- When `TryLock` reports the lock held elsewhere, or fails, the process logs
and exits with status 1: no read, no environment variable, no file write. -/
theorem main_without_lock (cfg : Config) (ticks : List TickInput) (w : World) (e : String)
    (b : Bool) :
    main { goodStartup cfg with locked := false } ticks w
        = (ProcessEnd.exited 1,
            (w.emit (Event.log
              "unable to obtain lock, another instance of the program is running")).emit
              (Event.exit 1))
    ∧ main { goodStartup cfg with locked := b, lockErr := some e } ticks w
        = (ProcessEnd.exited 1,
            (w.emit (Event.log ("error obtaining lock: " ++ e))).emit (Event.exit 1)) := by
  constructor <;> simp [main, goodStartup, logFatal]

/-- C10 (defect): when `api.NewClient` fails after `TryLock` has succeeded, the
process logs the error and exits through `log.Fatalf`; the deferred
`lock.Unlock()` is not run: the process ends with status 1 having called
`Unlock` zero times. -/
theorem C10_fatal_exit_after_lock_skips_unlock (cfg : Config) (e : String)
    (ticks : List TickInput) (w : World) :
    (main { goodStartup cfg with newClient := some e } ticks w).1 = ProcessEnd.exited 1
    ∧ (main { goodStartup cfg with newClient := some e } ticks w).2.trace
        = w.trace ++ [Event.log ("unable to initialize Vault client: " ++ e), Event.exit 1]
    ∧ List.count Event.unlock
        (main { goodStartup cfg with newClient := some e } ticks w).2.trace
        = List.count Event.unlock w.trace := by
  refine ⟨?_, ?_, ?_⟩ <;> simp [main, goodStartup, logFatal, List.count_cons]

/-- The two-pass run behind C1: the first pass publishes
`{"version":"3","a":["x","y"]}`, the second fetches it again and the process
ends in the comparison panic. -/
theorem second_fetch_of_slice_snapshot_crashes :
    (main (goodStartup exampleConfig)
      [plainInput (vaultWith listSnapshot) ⟨none, none⟩,
       plainInput (vaultWith listSnapshot) ⟨none, none⟩] World.fresh).1
      = ProcessEnd.exited 2 := by
  have hget : GetSecret (plainInput (vaultWith listSnapshot) ⟨none, none⟩).vault
      exampleConfig.VaultSecretPath = Except.ok (listSnapshot, none) := rfl
  have h1 := tick_changed exampleConfig (plainInput (vaultWith listSnapshot) ⟨none, none⟩)
    LoopState.initial World.fresh listSnapshot rfl hget (changeTest_initial id listSnapshot)
  have hc : changeTest id (sprintV (listSnapshot.indexOrNil "version"))
      (sprintV (listSnapshot.indexOrNil "version")) listSnapshot listSnapshot
      = Except.error Fault.uncomparable :=
    panics_of_same_entries id (fun m => List.Perm.refl m) listSnapshot listSnapshot
      (by simp [GoMap.WF, listSnapshot]) (List.Perm.refl _)
      (by
        intro h
        have := h ("a", Value.list [Value.str "x", Value.str "y"]) (by simp [listSnapshot])
        simp [Value.comparable] at this) _
  have hw1 : ∀ w0 : World, w0.ctxDone = false →
      (sleep10 (plainInput (vaultWith listSnapshot) ⟨none, none⟩)
        (publish exampleConfig (plainInput (vaultWith listSnapshot) ⟨none, none⟩) listSnapshot
          (sprintV (listSnapshot.indexOrNil "version")) w0).2).ctxDone = false := by
    intro w0 h0
    simp [sleep10, publish, plainInput, World.deliver, setenvLoop_ctxDone, h0]
  have h2 := tick_compare_panic exampleConfig (plainInput (vaultWith listSnapshot) ⟨none, none⟩)
    ⟨sprintV (listSnapshot.indexOrNil "version"), listSnapshot⟩ _ listSnapshot
    Fault.uncomparable
    (hw1 ((World.fresh.fetched exampleConfig
      (plainInput (vaultWith listSnapshot) ⟨none, none⟩)).deliver
      (plainInput (vaultWith listSnapshot) ⟨none, none⟩) Phase.detecting) rfl) hget hc
  simp [main, goodStartup, runLoop, h1, h2]

end VaultEnvReload
